import Mathlib

/-!
Shallow embedding of the `dictionary-api` repository: the `word_data`
aggregation module (`src/dictionary_api/word_data.py`) and the Flask word
endpoint (`src/dictionary_api/app.py`).

The external lexical database (NLTK WordNet) and the lemmatizer are
modelled as an abstract environment `WordNet`: a function from words to
sense-graph nodes plus a lemmatization function.  Only the accessors the
source code actually calls are modelled on a node: `pos()`, `definition()`,
`examples()`, `lemmas()` (with `name()` and `antonyms()` per lemma),
`hypernyms()` and `hyponyms()` (of which only the lemma names are read, so
each linked node is kept as its list of lemma names), and `name()`.

Python `set` values that are only ever converted with `sorted(list(s))` are
represented by accumulating elements in a list and applying
`sortedList` (sort of the deduplicated list) at the conversion point; this
preserves the membership semantics and the deterministic sorted output.
-/

namespace DictionaryApi

/-! ### Executable models of the Python string operations

The Python string primitives the source uses (`str.lower`, `str.replace`
with a one-character pattern, `str.strip`, `str.split(",")`, and the
code-point-lexicographic comparison underlying `sorted`) are modelled as
structurally recursive functions over the character list of a `String`, so
that every definition in this file evaluates inside the kernel.  All
strings handled by the repository are ASCII, where these models agree with
Python exactly. -/

/-- Python `s.lower()` on ASCII text: lower-case each character. -/
def pyLower (s : String) : String :=
  ⟨s.data.map Char.toLower⟩

/-- Python `s.strip()` on ASCII text: drop leading and trailing
whitespace. -/
def pyStrip (s : String) : String :=
  ⟨((s.data.dropWhile Char.isWhitespace).reverse.dropWhile Char.isWhitespace).reverse⟩

/-- Helper for `pySplitComma`: `acc` holds the characters of the current
field in reverse. -/
def splitCommaAux (acc : List Char) : List Char → List String
  | [] => [⟨acc.reverse⟩]
  | c :: cs =>
      if c = ',' then ⟨acc.reverse⟩ :: splitCommaAux [] cs
      else splitCommaAux (c :: acc) cs

/-- Python `s.split(",")`: split on every comma; the empty string yields
one empty field. -/
def pySplitComma (s : String) : List String :=
  splitCommaAux [] s.data

/-- Python string comparison (used by `sorted`): code-point lexicographic
order on the character lists.  This is also how Lean defines `String.lt`. -/
def strLt (a b : String) : Prop :=
  a.data < b.data

/-- The non-strict companion of `strLt`. -/
def strLe (a b : String) : Prop :=
  a.data ≤ b.data

instance : DecidableRel strLt :=
  fun a b => inferInstanceAs (Decidable (a.data < b.data))

instance : DecidableRel strLe :=
  fun a b => inferInstanceAs (Decidable (a.data ≤ b.data))

instance : IsTotal String strLe :=
  ⟨fun a b => le_total a.data b.data⟩

instance : IsTrans String strLe :=
  ⟨fun _ _ _ h1 h2 => le_trans h1 h2⟩

/-- A `String` is determined by its character list. -/
theorem string_data_inj {a b : String} (h : a.data = b.data) : a = b := by
  cases a
  cases b
  cases h
  rfl

/-- One WordNet lemma attached to a synset: its name and the names of the
lemmas reachable by a direct antonym link. -/
structure Lemma where
  name : String
  antonyms : List String
deriving Repr, DecidableEq

/-- One WordNet synset (sense-graph node), restricted to the accessors the
source reads.  `hypernyms` / `hyponyms` hold, for each directly-linked
broader / narrower node, that node's list of lemma names. -/
structure Synset where
  pos : String
  definition : String
  examples : List String
  lemmas : List Lemma
  hypernyms : List (List String)
  hyponyms : List (List String)
  name : String
deriving Repr, DecidableEq

/-- The external lexical database plus morphological normalizer:
`synsets w` is WordNet's native enumeration of the sense nodes for the
surface form `w`; `lemmatize` is `WordNetLemmatizer.lemmatize` (applied by
the source to the lower-cased input). -/
structure WordNet where
  synsets : String → List Synset
  lemmatize : String → String

/-- Dict `POS_MAPPING` from `word_data.py`: WordNet short codes to
human-readable labels, in the dict's insertion order. -/
def POS_MAPPING : List (String × String) :=
  [("n", "noun"), ("v", "verb"), ("a", "adjective"), ("s", "adjective"), ("r", "adverb")]

/-- Python `dict.get(k)` on a dict represented as an insertion-ordered
association list with unique keys. -/
def dictGet (d : List (String × String)) (k : String) : Option String :=
  (d.find? (fun p => p.1 = k)).map (fun p => p.2)

/-- Python dict assignment `d[k] = v`: overwrite the existing binding if the
key is present, otherwise append. -/
def dictUpsert (d : List (String × String)) (k v : String) : List (String × String) :=
  if d.any (fun p => p.1 = k) then d.map (fun p => if p.1 = k then (k, v) else p)
  else d ++ [(k, v)]

/-- The dict comprehension `{v: k for k, v in POS_MAPPING.items()}` built in
`get_synsets`: later pairs overwrite earlier ones, so of the two codes
mapping to "adjective", the satellite code "s" wins. -/
def reverse_mapping : List (String × String) :=
  POS_MAPPING.foldl (fun d kv => dictUpsert d kv.2 kv.1) []

/-- Function `normalize_pos` from `word_data.py`: `POS_MAPPING.get(tag, tag)`.  The
`lru_cache(maxsize=5)` wrapper only memoizes this pure function and never
fails (its `str` argument is hashable), so it is value-transparent. -/
def normalize_pos (tag : String) : String :=
  (dictGet POS_MAPPING tag).getD tag

/-- Function `lemmatize_word` from `word_data.py`:
`WordNetLemmatizer().lemmatize(word.lower())`. -/
def lemmatize_word (W : WordNet) (word : String) : String :=
  W.lemmatize (pyLower word)

/-- Function `get_synsets` from `word_data.py`.  `if not pos_filter` is Python
truthiness: both `None` and the empty list skip filtering.  Otherwise the
filter tokens are lower-cased, translated through `reverse_mapping` (tokens
absent from it pass through unchanged), and a synset is kept iff its short
code is in the translated list. -/
def get_synsets (W : WordNet) (word : String) (pos_filter : Option (List String)) :
    List Synset :=
  let synsets := W.synsets word
  match pos_filter with
  | none => synsets
  | some [] => synsets
  | some pf =>
      let pf := pf.map pyLower
      let wn_pos_filter := pf.map (fun pos => (dictGet reverse_mapping pos).getD pos)
      synsets.filter (fun s => wn_pos_filter.contains s.pos)

/-- Function `format_lemma_name` from `word_data.py`:
`name.replace("_", " ")`.  With a one-character pattern, Python's `replace`
is exactly the character-wise substitution. -/
def format_lemma_name (name : String) : String :=
  ⟨name.data.map (fun c => if c = '_' then ' ' else c)⟩

/-- Python `sorted(list(s))` where the set `s` was built from the elements
of `l`: the ascending enumeration of the distinct elements of `l`. -/
def sortedList (l : List String) : List String :=
  l.dedup.insertionSort strLe

/-- Helper for first-seen deduplication with a `seen` set, as in the
`get_definitions` loop. -/
def firstDedupAux (seen : List String) : List String → List String
  | [] => []
  | x :: xs =>
      if seen.contains x then firstDedupAux seen xs
      else x :: firstDedupAux (x :: seen) xs

/-- First-seen-order deduplication: keep the first occurrence of every
string, preserving order. -/
def firstDedup (l : List String) : List String :=
  firstDedupAux [] l

/-- Function `get_definitions` from `word_data.py`: the definitions of the retrieved
synsets in retrieval order, skipping exact duplicate strings. -/
def get_definitions (W : WordNet) (word : String) (pos_filter : Option (List String)) :
    List String :=
  let lemmatized := lemmatize_word W word
  let synsets := get_synsets W lemmatized pos_filter
  firstDedup (synsets.map (fun s => s.definition))

/-- The filter construction in `get_definition`:
`pos_filter = [pos] if pos else None` (Python truthiness: `None` and `""`
both give `None`). -/
def single_pos_filter (pos : Option String) : Option (List String) :=
  match pos with
  | some p => if p = "" then none else some [p]
  | none => none

/-- Function `get_definition` from `word_data.py`.  When the definitions list is
nonempty the source evaluates `definitions[0]["definition"]`, subscripting
a `str` with a `str` key, which raises `TypeError: string indices must be
integers`; the raise is modelled with `Except.error`. -/
def get_definition (W : WordNet) (word : String) (pos : Option String) :
    Except String String :=
  let definitions := get_definitions W word (single_pos_filter pos)
  match definitions with
  | [] => .ok ""
  | _ :: _ => .error "TypeError: string indices must be integers"

/-- Function `get_synonyms` from `word_data.py`: all formatted lemma names of the
retrieved synsets, as a set, with the lemmatized query word removed if
present, returned sorted.  Set-minus-element is rendered as a filter before
the sort-of-distinct-elements conversion. -/
def get_synonyms (W : WordNet) (word : String) (pos_filter : Option (List String)) :
    List String :=
  let lemmatized := lemmatize_word W word
  let synsets := get_synsets W lemmatized pos_filter
  let names := synsets.flatMap (fun s => s.lemmas.map (fun l => format_lemma_name l.name))
  sortedList (names.filter (fun x => x ≠ lemmatized))

/-- Function `get_antonyms` from `word_data.py`: formatted names of all antonym
lemmas of all lemmas of the retrieved synsets, sorted set. -/
def get_antonyms (W : WordNet) (word : String) (pos_filter : Option (List String)) :
    List String :=
  let lemmatized := lemmatize_word W word
  let synsets := get_synsets W lemmatized pos_filter
  sortedList (synsets.flatMap (fun s =>
    s.lemmas.flatMap (fun l => l.antonyms.map format_lemma_name)))

/-- Function `get_examples` from `word_data.py`: the union of the example lists of
the retrieved synsets collected into a set, returned with
`sorted(list(examples))`. -/
def get_examples (W : WordNet) (word : String) (pos_filter : Option (List String)) :
    List String :=
  let lemmatized := lemmatize_word W word
  let synsets := get_synsets W lemmatized pos_filter
  sortedList (synsets.flatMap (fun s => s.examples))

/-- Function `get_hypernyms` from `word_data.py`: formatted lemma names of every
directly-linked hypernym node of the retrieved synsets, sorted set. -/
def get_hypernyms (W : WordNet) (word : String) (pos_filter : Option (List String)) :
    List String :=
  let lemmatized := lemmatize_word W word
  let synsets := get_synsets W lemmatized pos_filter
  sortedList (synsets.flatMap (fun s => s.hypernyms.flatMap (fun h => h.map format_lemma_name)))

/-- Function `get_hyponyms` from `word_data.py`: formatted lemma names of every
directly-linked hyponym node of the retrieved synsets, sorted set. -/
def get_hyponyms (W : WordNet) (word : String) (pos_filter : Option (List String)) :
    List String :=
  let lemmatized := lemmatize_word W word
  let synsets := get_synsets W lemmatized pos_filter
  sortedList (synsets.flatMap (fun s => s.hyponyms.flatMap (fun h => h.map format_lemma_name)))

/-- One entry of the `entries` list built by `get_word_data`. -/
structure Entry where
  word : String
  definition : String
  pos : String
  examples : List String
  synonyms : List String
  antonyms : List String
  hypernyms : List String
  hyponyms : List String
  synset_id : String
deriving Repr, DecidableEq

/-- The dictionary returned by `get_word_data`. -/
structure WordRecord where
  word : String
  entries : List Entry
  num_senses : Nat
deriving Repr, DecidableEq

/-- Body of the per-synset loop in `get_word_data`: build one entry from
one synset. -/
def mkEntry (lemmatized : String) (s : Synset) : Entry :=
  let pos := normalize_pos s.pos
  let synonyms := s.lemmas.map (fun l => format_lemma_name l.name)
  let antonyms := s.lemmas.flatMap (fun l => l.antonyms.map format_lemma_name)
  let hypernyms := s.hypernyms.flatMap (fun h => h.map format_lemma_name)
  let hyponyms := s.hyponyms.flatMap (fun h => h.map format_lemma_name)
  { word := lemmatized
    definition := s.definition
    pos := pos
    examples := s.examples
    synonyms := sortedList (synonyms.filter (fun x => x ≠ lemmatized))
    antonyms := sortedList antonyms
    hypernyms := sortedList hypernyms
    hyponyms := sortedList hyponyms
    synset_id := s.name }

/-- The body of `get_word_data` (the function wrapped by `lru_cache`):
lemmatize, retrieve the filtered synsets, build one entry per synset in
retrieval order, and set `num_senses` to the length of `entries`. -/
def get_word_data_fn (W : WordNet) (word : String) (pos_filter : Option (List String)) :
    WordRecord :=
  let lemmatized := lemmatize_word W word
  let synsets := get_synsets W lemmatized pos_filter
  let entries := synsets.map (mkEntry lemmatized)
  { word := lemmatized, entries := entries, num_senses := entries.length }

/-- The public `get_word_data` callable, i.e. the `lru_cache(maxsize=100)`
wrapper around `get_word_data_fn`.  Before the body runs, `lru_cache`
hashes the argument tuple; a list-valued `pos_filter` is unhashable and the
call raises `TypeError: unhashable type: list`.  With `pos_filter = None`
the key is hashable and, the body being deterministic, caching is
value-transparent. -/
def get_word_data (W : WordNet) (word : String) (pos_filter : Option (List String)) :
    Except String WordRecord :=
  match pos_filter with
  | none => .ok (get_word_data_fn W word none)
  | some _ => .error "TypeError: unhashable type: list"

/-- The ASCII apostrophe, used in the response messages of `app.py`. -/
def sq : String :=
  (Char.ofNat 39).toString

/-- The JSON body and status code produced by one request to the word
endpoint of `app.py`. -/
structure HttpResponse where
  status : Nat
  data : Option WordRecord
  error : Option String
deriving Repr, DecidableEq

/-- Python `a or b` on the two word sources of `word_lookup`
(`word = word or request.args.get("word")`): the path word if truthy
(present and nonempty), else the query parameter. -/
def pyOrStr (a b : Option String) : Option String :=
  match a with
  | some s => if s = "" then b else some s
  | none => b

/-- The `pos` query-parameter parsing in `word_lookup`: `if pos_str:` is
Python truthiness (absent and empty both skip), otherwise split on commas
and strip whitespace from each token. -/
def parse_pos (pos_str : Option String) : Option (List String) :=
  match pos_str with
  | some s => if s = "" then none else some ((pySplitComma s).map pyStrip)
  | none => none

/-- Function `word_lookup` from `app.py`, for a request carrying an optional path
word, an optional `word` query parameter and an optional `pos` query
parameter.  The `try` block catches any exception from `get_word_data`
(modelled by its `Except.error` case) and answers 500; otherwise the
returned dict (always truthy) is answered 200 when `num_senses > 0` and
404 otherwise. -/
def word_lookup (W : WordNet) (path_word query_word pos_str : Option String) :
    HttpResponse :=
  match pyOrStr path_word query_word with
  | none => { status := 400, data := none
              error := some ("Missing " ++ sq ++ "word" ++ sq ++ " query parameter") }
  | some w =>
      if w = "" then
        { status := 400, data := none
          error := some ("Missing " ++ sq ++ "word" ++ sq ++ " query parameter") }
      else
        let pos_filter := parse_pos pos_str
        match get_word_data W w pos_filter with
        | .ok r =>
            if r.num_senses > 0 then { status := 200, data := some r, error := none }
            else { status := 404, data := none
                   error := some ("No definitions found for " ++ sq ++ w ++ sq) }
        | .error _ =>
            { status := 500, data := none
              error := some "An internal server error occurred" }

/-- The five part-of-speech short codes WordNet assigns to synsets. -/
def knownCodes : List String :=
  ["n", "v", "a", "s", "r"]

/-- The human-readable labels occurring in `POS_MAPPING`. -/
def knownLabels : List String :=
  ["noun", "verb", "adjective", "adverb"]

/-- The translation `get_synsets` applies to one filter token: lower-case
it, then look it up in `reverse_mapping`, unknown tokens passing through
unchanged. -/
def mapToken (t : String) : String :=
  (dictGet reverse_mapping (pyLower t)).getD (pyLower t)

/-- A filter token that (after lowercasing) is neither a known short code
nor a known human-readable label. -/
def unknownToken (t : String) : Prop :=
  pyLower t ∉ knownCodes ∧ pyLower t ∉ knownLabels

instance (t : String) : Decidable (unknownToken t) :=
  inferInstanceAs (Decidable (pyLower t ∉ knownCodes ∧ pyLower t ∉ knownLabels))

/-- The database assigns every synset one of the five WordNet short codes
(true of the real WordNet corpus). -/
def wellFormed (W : WordNet) : Prop :=
  ∀ w s, s ∈ W.synsets w → s.pos ∈ knownCodes

/-- Modelled from the spec (claim wording for `get_examples`): the example
sentences of the retrieved senses in first-seen retrieval order with exact
duplicate strings suppressed.  Stated for comparison with the source's
`get_examples`. -/
def examplesFirstSeen (W : WordNet) (word : String) (pos_filter : Option (List String)) :
    List String :=
  let lemmatized := lemmatize_word W word
  let synsets := get_synsets W lemmatized pos_filter
  firstDedup (synsets.flatMap (fun s => s.examples))

/-! ### A small concrete database for witnesses and counterexamples

`sampleDB` mirrors the shape of real WordNet entries: "dog" has one noun
sense, "happy" has one primary-adjective sense (code "a") and one
satellite sense (code "s"); every other surface form is absent.  The
lemmatizer is the identity, as WordNet's lemmatizer is on these base
forms. -/

/-- Sample noun sense for "dog"; its example list is deliberately not in
sorted order. -/
def dogSyn : Synset :=
  { pos := "n"
    definition := "a domesticated canid"
    examples := ["the dog barked", "a faithful dog"]
    lemmas := [{ name := "dog", antonyms := [] },
               { name := "domestic_dog", antonyms := ["cat"] }]
    hypernyms := [["canine", "canid"]]
    hyponyms := [["puppy"], ["lapdog"]]
    name := "dog.n.01" }

/-- Sample primary-adjective sense (short code "a") for "happy". -/
def happyA : Synset :=
  { pos := "a"
    definition := "enjoying or showing joy"
    examples := ["a happy smile"]
    lemmas := [{ name := "happy", antonyms := ["unhappy"] }]
    hypernyms := []
    hyponyms := []
    name := "happy.a.01" }

/-- Sample satellite-adjective sense (short code "s") for "happy". -/
def happyS : Synset :=
  { pos := "s"
    definition := "marked by good fortune"
    examples := []
    lemmas := [{ name := "felicitous", antonyms := [] },
               { name := "happy", antonyms := [] }]
    hypernyms := []
    hyponyms := []
    name := "felicitous.s.02" }

/-- The concrete sample database. -/
def sampleDB : WordNet :=
  { synsets := fun w =>
      if w = "dog" then [dogSyn]
      else if w = "happy" then [happyA, happyS]
      else []
    lemmatize := fun s => s }

/-- Every synset of `sampleDB` carries one of the five WordNet short
codes. -/
theorem sampleDB_wellFormed : wellFormed sampleDB := by
  intro w s hs
  dsimp [sampleDB] at hs
  by_cases h1 : w = "dog"
  · simp [h1] at hs
    subst hs
    decide
  · by_cases h2 : w = "happy"
    · simp [h1, h2] at hs
      rcases hs with rfl | rfl <;> decide
    · simp [h1, h2] at hs

/-! ### Generic facts about the sorted-set conversion -/

/-- Membership in `sorted(list(s))` is membership among the accumulated
elements. -/
theorem mem_sortedList {a : String} {l : List String} :
    a ∈ sortedList l ↔ a ∈ l := by
  unfold sortedList
  rw [List.mem_insertionSort, List.mem_dedup]

/-- Conversion `sorted(list(s))` of a set is strictly increasing: sorted for `≤` by
construction and duplicate-free because a set holds distinct elements. -/
theorem sortedList_sorted (l : List String) :
    List.Sorted strLt (sortedList l) := by
  have hs : List.Sorted strLe (sortedList l) :=
    List.sorted_insertionSort _ _
  have hn : (sortedList l).Nodup :=
    (List.perm_insertionSort _ _).nodup_iff.mpr l.nodup_dedup
  exact (hs.and hn).imp (fun h =>
    lt_of_le_of_ne h.1 (fun hd => h.2 (string_data_inj hd)))

/-- The dict comprehension in `get_synsets`, evaluated: the two adjective
codes collapse onto the label "adjective", and the satellite code "s",
written last, wins. -/
theorem reverse_mapping_eq :
    reverse_mapping =
      [("noun", "n"), ("verb", "v"), ("adjective", "s"), ("adverb", "r")] := by
  decide

/-- A token that is not one of the four human-readable labels is absent
from `reverse_mapping`. -/
theorem dictGet_reverse_mapping_of_not_label {k : String} (hk : k ∉ knownLabels) :
    dictGet reverse_mapping k = none := by
  simp [knownLabels] at hk
  obtain ⟨h1, h2, h3, h4⟩ := hk
  rw [reverse_mapping_eq]
  simp [dictGet, List.find?, Ne.symm h1, Ne.symm h2, Ne.symm h3, Ne.symm h4]

/-- On a token outside the label set, the per-token translation of
`get_synsets` is just lowercasing. -/
theorem mapToken_of_unknown {t : String} (ht : unknownToken t) :
    mapToken t = pyLower t := by
  unfold mapToken
  rw [dictGet_reverse_mapping_of_not_label ht.2]
  rfl

/-- Unfolding of `get_synsets` on a nonempty filter list. -/
theorem get_synsets_some_eq (W : WordNet) (w : String) (p : String) (ps : List String) :
    get_synsets W w (some (p :: ps)) =
      (W.synsets w).filter (fun s =>
        (((p :: ps).map pyLower).map
          (fun pos => (dictGet reverse_mapping pos).getD pos)).contains s.pos) := rfl

/-- C1: for every database and word, the call `get_word_data(w, ["noun"])`
never succeeds: the `lru_cache` wrapper hashes the list-valued filter and
raises `TypeError` before the body runs.  The body itself does honour the
filter: every entry it builds for the filter `["noun"]` has pos "noun". -/
theorem get_word_data_noun_filter_raises (W : WordNet) (w : String) :
    get_word_data W w (some ["noun"]) = .error "TypeError: unhashable type: list" ∧
    ((get_word_data_fn W w (some ["noun"])).entries.all
      (fun e => e.pos == "noun")) = true := by
  refine ⟨rfl, ?_⟩
  rw [List.all_eq_true]
  intro e he
  dsimp [get_word_data_fn] at he
  rw [List.mem_map] at he
  obtain ⟨s, hs, rfl⟩ := he
  rw [get_synsets_some_eq, List.mem_filter] at hs
  have hpos : s.pos ∈ ((["noun"].map pyLower).map
      (fun pos => (dictGet reverse_mapping pos).getD pos)) := List.elem_iff.mp hs.2
  have hlist : ((["noun"].map pyLower).map
      (fun pos => (dictGet reverse_mapping pos).getD pos)) = ["n"] := by decide
  rw [hlist, List.mem_singleton] at hpos
  dsimp [mkEntry]
  rw [hpos]
  decide

/-- C2: the reverse dict built by `get_synsets` sends the label
"adjective" (in any letter case) to the satellite code "s" alone, the
comprehension having kept the last of the two codes that map to that
label; a human-readable adjective filter therefore matches only satellite
senses and silently drops primary code-"a" senses, although the short-code
filter `["a"]` still matches them. -/
theorem adjective_filter_matches_only_satellite (W : WordNet) (w : String) :
    get_synsets W w (some ["adjective"]) =
      (W.synsets w).filter (fun s => s.pos == "s") ∧
    get_synsets W w (some ["Adjective"]) =
      (W.synsets w).filter (fun s => s.pos == "s") ∧
    get_synsets W w (some ["a"]) = (W.synsets w).filter (fun s => s.pos == "a") := by
  refine ⟨?_, ?_, ?_⟩
  · have hlist : ((["adjective"].map pyLower).map
        (fun pos => (dictGet reverse_mapping pos).getD pos)) = ["s"] := by decide
    rw [get_synsets_some_eq]
    simp only [hlist]
    apply List.filter_congr
    intro s _
    cases h : s.pos == "s" <;> simp [List.contains, List.elem, h]
  · have hlist : ((["Adjective"].map pyLower).map
        (fun pos => (dictGet reverse_mapping pos).getD pos)) = ["s"] := by decide
    rw [get_synsets_some_eq]
    simp only [hlist]
    apply List.filter_congr
    intro s _
    cases h : s.pos == "s" <;> simp [List.contains, List.elem, h]
  · have hlist : ((["a"].map pyLower).map
        (fun pos => (dictGet reverse_mapping pos).getD pos)) = ["a"] := by decide
    rw [get_synsets_some_eq]
    simp only [hlist]
    apply List.filter_congr
    intro s _
    cases h : s.pos == "a" <;> simp [List.contains, List.elem, h]

/-- C3: a request for `word=happy` with `pos=adjective` builds the filter
list `["adjective"]`, and the `lru_cache` wrapper of `get_word_data`
raises on the unhashable list; the endpoint's `except` branch answers 500,
not 200, whatever the database holds for "happy". -/
theorem happy_adjective_request_returns_500 (W : WordNet) :
    word_lookup W none (some "happy") (some "adjective") =
      { status := 500, data := none
        error := some "An internal server error occurred" } := rfl

/-- C4 counterexample: on a sense whose example list is not
alphabetically ordered, `get_examples` (which sorts a set) differs from
the first-seen-order deduplication the claim describes. -/
theorem get_examples_not_first_seen :
    get_examples sampleDB "dog" none ≠ examplesFirstSeen sampleDB "dog" none := by
  decide

/-- C4 amended: `get_examples` returns the example sentences of the
retrieved senses with exact duplicates suppressed, in ascending
code-point-lexicographic order (Python `sorted`), not in first-seen
retrieval order. -/
theorem get_examples_sorted_dedup (W : WordNet) (w : String)
    (f : Option (List String)) :
    List.Sorted strLt (get_examples W w f) ∧
    ∀ x, x ∈ get_examples W w f ↔
      x ∈ (get_synsets W (lemmatize_word W w) f).flatMap (fun s => s.examples) := by
  constructor
  · exact sortedList_sorted _
  · intro x
    exact mem_sortedList

/-- C5: whenever `get_word_data` returns a record, its `num_senses` field
equals the length of its `entries` list, and a word with no senses in the
database yields the zero-sense record ("not found"). -/
theorem num_senses_eq_entries_length (W : WordNet) (w : String)
    (f : Option (List String)) (r : WordRecord)
    (h : get_word_data W w f = .ok r) :
    r.num_senses = r.entries.length ∧
    (W.synsets (lemmatize_word W w) = [] → r.num_senses = 0) := by
  cases f with
  | some l => simp [get_word_data] at h
  | none =>
      have hr : get_word_data_fn W w none = r := by
        simpa [get_word_data] using h
      subst hr
      refine ⟨rfl, fun hempty => ?_⟩
      dsimp [get_word_data_fn, get_synsets]
      rw [hempty]
      rfl

/-- Witness for C5: the sample database, on a present and on an absent
word. -/
theorem num_senses_eq_entries_length_witness :
    (get_word_data_fn sampleDB "dog" none).num_senses =
      (get_word_data_fn sampleDB "dog" none).entries.length ∧
    (get_word_data_fn sampleDB "zzz" none).num_senses = 0 :=
  ⟨(num_senses_eq_entries_length sampleDB "dog" none _ rfl).1,
   (num_senses_eq_entries_length sampleDB "zzz" none _ rfl).2 (by decide)⟩

/-- C6: the lemmatized query word never appears in a synonym list: the
projection removes it from the synonym set before sorting, and the
per-entry synonym construction inside `get_word_data` does the same. -/
theorem lemmatized_not_in_synonyms (W : WordNet) (w : String)
    (f : Option (List String)) :
    lemmatize_word W w ∉ get_synonyms W w f ∧
    ∀ r e, get_word_data W w none = .ok r → e ∈ r.entries →
      lemmatize_word W w ∉ e.synonyms := by
  constructor
  · intro hmem
    dsimp [get_synonyms] at hmem
    rw [mem_sortedList, List.mem_filter] at hmem
    simp at hmem
  · intro r e hr he hmem
    have hrr : get_word_data_fn W w none = r := by
      simpa [get_word_data] using hr
    subst hrr
    dsimp [get_word_data_fn] at he
    rw [List.mem_map] at he
    obtain ⟨s, hs, rfl⟩ := he
    dsimp [mkEntry] at hmem
    rw [mem_sortedList, List.mem_filter] at hmem
    simp at hmem

/-- Witness for C6 at the sample database: "dog" is missing both from the
projection result and from the synonyms of its own entry. -/
theorem lemmatized_not_in_synonyms_witness :
    lemmatize_word sampleDB "dog" ∉ get_synonyms sampleDB "dog" none ∧
    lemmatize_word sampleDB "dog" ∉ (mkEntry "dog" dogSyn).synonyms :=
  ⟨(lemmatized_not_in_synonyms sampleDB "dog" none).1,
   (lemmatized_not_in_synonyms sampleDB "dog" none).2
      (get_word_data_fn sampleDB "dog" none) (mkEntry "dog" dogSyn) rfl (by decide)⟩

/-- C7: every set-valued output list — the synonyms, antonyms, hypernyms
and hyponyms of each entry built by `get_word_data`, and the four
set-valued projections — is strictly increasing in the
code-point-lexicographic string order. -/
theorem set_valued_fields_strictly_sorted (W : WordNet) (w : String)
    (f : Option (List String)) :
    (∀ e, e ∈ (get_word_data_fn W w f).entries →
      List.Sorted strLt e.synonyms ∧ List.Sorted strLt e.antonyms ∧
      List.Sorted strLt e.hypernyms ∧ List.Sorted strLt e.hyponyms) ∧
    List.Sorted strLt (get_synonyms W w f) ∧
    List.Sorted strLt (get_antonyms W w f) ∧
    List.Sorted strLt (get_hypernyms W w f) ∧
    List.Sorted strLt (get_hyponyms W w f) := by
  refine ⟨?_, sortedList_sorted _, sortedList_sorted _, sortedList_sorted _,
    sortedList_sorted _⟩
  intro e he
  dsimp [get_word_data_fn] at he
  rw [List.mem_map] at he
  obtain ⟨s, hs, rfl⟩ := he
  exact ⟨sortedList_sorted _, sortedList_sorted _, sortedList_sorted _,
    sortedList_sorted _⟩

/-- Witness for C7 at the sample database and the "dog" entry. -/
theorem set_valued_fields_strictly_sorted_witness :
    (List.Sorted strLt (mkEntry "dog" dogSyn).synonyms ∧
     List.Sorted strLt (mkEntry "dog" dogSyn).antonyms ∧
     List.Sorted strLt (mkEntry "dog" dogSyn).hypernyms ∧
     List.Sorted strLt (mkEntry "dog" dogSyn).hyponyms) ∧
    List.Sorted strLt (get_synonyms sampleDB "dog" none) :=
  ⟨(set_valued_fields_strictly_sorted sampleDB "dog" none).1
      (mkEntry "dog" dogSyn) (by decide),
   (set_valued_fields_strictly_sorted sampleDB "dog" none).2.1⟩

/-- C8: with no word supplied, the endpoint answers 400 without consulting
the database; when the aggregation returns a record, zero senses yield 404
with null data and a nonzero count yields 200 with the record as data. -/
theorem word_endpoint_status_codes (W W2 : WordNet) (pos_str : Option String)
    (w : String) (hw : w ≠ "") (r : WordRecord)
    (hr : get_word_data W w (parse_pos pos_str) = .ok r) :
    (word_lookup W none none pos_str =
      { status := 400, data := none
        error := some ("Missing " ++ sq ++ "word" ++ sq ++ " query parameter") } ∧
     word_lookup W none none pos_str = word_lookup W2 none none pos_str) ∧
    (r.num_senses = 0 →
      word_lookup W none (some w) pos_str =
        { status := 404, data := none
          error := some ("No definitions found for " ++ sq ++ w ++ sq) }) ∧
    (0 < r.num_senses →
      word_lookup W none (some w) pos_str =
        { status := 200, data := some r, error := none }) := by
  refine ⟨⟨rfl, rfl⟩, ?_, ?_⟩
  · intro h0
    dsimp [word_lookup, pyOrStr]
    rw [if_neg hw, hr]
    dsimp
    rw [h0]
    rfl
  · intro h1
    dsimp [word_lookup, pyOrStr]
    rw [if_neg hw, hr]
    dsimp
    rw [if_pos h1]

/-- Witness for C8 at the sample database: the three status codes on a
missing word, an absent word, and a present word. -/
theorem word_endpoint_status_codes_witness :
    (word_lookup sampleDB none none none =
      { status := 400, data := none
        error := some ("Missing " ++ sq ++ "word" ++ sq ++ " query parameter") }) ∧
    (word_lookup sampleDB none (some "zzz") none =
      { status := 404, data := none
        error := some ("No definitions found for " ++ sq ++ "zzz" ++ sq) }) ∧
    (word_lookup sampleDB none (some "dog") none =
      { status := 200, data := some (get_word_data_fn sampleDB "dog" none)
        error := none }) :=
  ⟨(word_endpoint_status_codes sampleDB sampleDB none "zzz" (by decide) _ rfl).1.1,
   (word_endpoint_status_codes sampleDB sampleDB none "zzz" (by decide) _ rfl).2.1
      (by decide),
   (word_endpoint_status_codes sampleDB sampleDB none "dog" (by decide) _ rfl).2.2
      (by decide)⟩

/-- C9: a filter token that is neither a short code nor a label (after
lowercasing) passes through the reverse dict unchanged, so on a database
whose synsets all carry the five WordNet codes it matches no sense, and
removing it from the translated match list does not change which senses
are retrieved; no exception is involved (`get_synsets` is total). -/
theorem unknown_pos_token_matches_nothing (W : WordNet) (t : String)
    (hW : wellFormed W) (ht : unknownToken t) :
    (∀ w s, s ∈ W.synsets w → s.pos ≠ mapToken t) ∧
    (∀ w fs, t ∈ fs →
      get_synsets W w (some fs) =
        (W.synsets w).filter (fun s =>
          ((fs.filter (fun x => x ≠ t)).map mapToken).contains s.pos)) := by
  have hmt : mapToken t = pyLower t := mapToken_of_unknown ht
  have hnot : ∀ w s, s ∈ W.synsets w → s.pos ≠ mapToken t := by
    intro w s hs heq
    have hcode := hW w s hs
    rw [heq, hmt] at hcode
    exact ht.1 hcode
  refine ⟨hnot, ?_⟩
  intro w fs hfs
  cases fs with
  | nil => cases hfs
  | cons p ps =>
      rw [get_synsets_some_eq]
      apply List.filter_congr
      intro s hsyn
      have hmap : ((p :: ps).map pyLower).map
          (fun pos => (dictGet reverse_mapping pos).getD pos) =
            (p :: ps).map mapToken := by
        rw [List.map_map]
        rfl
      rw [hmap]
      have hne := hnot w s hsyn
      rw [Bool.eq_iff_iff]
      constructor
      · intro hc
        have hp := List.elem_iff.mp hc
        rw [List.mem_map] at hp
        obtain ⟨x, hx, hxe⟩ := hp
        have hxt : x ≠ t := by
          intro hteq
          subst hteq
          exact hne hxe.symm
        apply List.elem_iff.mpr
        rw [List.mem_map]
        exact ⟨x, List.mem_filter.mpr ⟨hx, decide_eq_true hxt⟩, hxe⟩
      · intro hc
        have hp := List.elem_iff.mp hc
        rw [List.mem_map] at hp
        obtain ⟨x, hx, hxe⟩ := hp
        apply List.elem_iff.mpr
        rw [List.mem_map]
        exact ⟨x, (List.mem_filter.mp hx).1, hxe⟩

/-- Witness for C9 on the sample database with the token "xyz": the
primary adjective sense is untouched by the token, and a filter containing
it behaves as if the token were dropped from the match list. -/
theorem unknown_pos_token_matches_nothing_witness :
    happyA.pos ≠ mapToken "xyz" ∧
    get_synsets sampleDB "happy" (some ["xyz", "s"]) =
      (sampleDB.synsets "happy").filter (fun s =>
        ((["xyz", "s"].filter (fun x => x ≠ "xyz")).map mapToken).contains s.pos) :=
  ⟨(unknown_pos_token_matches_nothing sampleDB "xyz" sampleDB_wellFormed
      (by decide)).1 "happy" happyA (by decide),
   (unknown_pos_token_matches_nothing sampleDB "xyz" sampleDB_wellFormed
      (by decide)).2 "happy" ["xyz", "s"] (by decide)⟩

/-- C10: `get_definition` answers the empty string exactly when there is
no definition under the filter; when one exists, it raises the `TypeError`
from subscripting a string with the key "definition". -/
theorem get_definition_crashes_when_definitions_exist (W : WordNet)
    (word : String) (pos : Option String) :
    (get_definition W word pos = .ok "" ↔
      get_definitions W word (single_pos_filter pos) = []) ∧
    (get_definitions W word (single_pos_filter pos) ≠ [] →
      get_definition W word pos = .error "TypeError: string indices must be integers") := by
  unfold get_definition
  cases h : get_definitions W word (single_pos_filter pos) with
  | nil => simp [h]
  | cons d ds => simp [h]

/-- Witness for C10 at the sample database: the empty result on an absent
word and the raise on a present one. -/
theorem get_definition_crashes_witness :
    (get_definition sampleDB "zzz" none = .ok "" ↔
      get_definitions sampleDB "zzz" (single_pos_filter none) = []) ∧
    get_definition sampleDB "dog" none =
      .error "TypeError: string indices must be integers" :=
  ⟨(get_definition_crashes_when_definitions_exist sampleDB "zzz" none).1,
   (get_definition_crashes_when_definitions_exist sampleDB "dog" none).2 (by decide)⟩

end DictionaryApi
